import Mathlib

/-!
Shallow embedding of the express-ctx repository.

The repository contains two generations of the `MyContext` class in
`src/src/ctx.ts` (separated halves of the file), a session-reuse Express
middleware (`src/context-middleware.ts`, present as an unnamed source part),
and a fresh-per-request middleware (`dist/src/context-middleware.js`).

Generation 1 (`CtxV1` here, ctx.ts lines 57-150):
  storage with optional per-entry expiry, a falsy-value guard in `set`
  (`if (!value) return`), a `get` that throws internally on a missing key
  and converts that to `undefined`, a `clear` accepting an optional key,
  TTL timers scheduled with `setTimeout`, and a `triggerHooks` that
  redirects a throwing callback's error to the `onError` hooks WITHOUT a
  re-entrancy guard.

Generation 2 (`CtxV2` here, ctx.ts lines 155-260):
  no TTL, `set` guards only on `undefined` (`value === undefined`),
  `get` returns `undefined` directly, `clear(key | star)` fires an
  unconditional argument-less `onClear` dispatch first, and
  `triggerHooks` carries the re-entrancy guard `event !== 'onError'`.

Hook callbacks are arbitrary JavaScript functions; they are modelled by an
observable identifier and a flag saying whether the callback throws when
invoked. Callbacks do not mutate the context in the model (the claims under
verification only concern the store's own transitions and which dispatches
occur). JavaScript `Map` objects are modelled extensionally as functions
`String → Option _` (the source never iterates a storage map: it only uses
get/set/delete/has/clear). The JavaScript call stack is modelled by a fuel
parameter in the generation-1 dispatcher: exhausted fuel corresponds to the
`RangeError` raised at stack overflow, which escapes the enclosing frames.
-/

/-- JavaScript values permitted by the AllowedValueTypes union of
`src/src/types.ts`: primitives, null, undefined, and (opaque, identified)
objects such as Date instances, arrays and nested records. -/
inductive Value where
  | str (s : String)
  | num (n : Int)
  | vbool (b : Bool)
  | vnull
  | undefined
  | obj (id : Nat)
  deriving Repr, DecidableEq

/-- JavaScript truthiness of a modelled value: `undefined`, `null`, `false`,
`0` and the empty string are falsy; every object is truthy. This is the
test performed by the `if (!value) return;` guard of the generation-1
`set`. -/
def Value.truthy : Value → Bool
  | .str s => !s.isEmpty
  | .num n => n != 0
  | .vbool b => b
  | .vnull => false
  | .undefined => false
  | .obj _ => true

/-- The five recognized hook events of the HookRegistry. -/
inductive Event where
  | beforeGet
  | afterSet
  | onClear
  | onSet
  | onError
  deriving Repr, DecidableEq

/-- A registered hook callback, modelled by an observable identifier and
whether invoking it throws. -/
structure Cb where
  id : Nat
  throws : Bool
  deriving Repr, DecidableEq

/-- The hook registry: one ordered callback list per recognized event,
mirroring the `hooks` field of `MyContext`. -/
structure Hooks where
  beforeGet : List Cb
  afterSet : List Cb
  onClear : List Cb
  onSet : List Cb
  onError : List Cb
  deriving Repr, DecidableEq

/-- Registry with no callbacks, as built by the `MyContext` constructor. -/
def Hooks.empty : Hooks := ⟨[], [], [], [], []⟩

/-- Callback list registered for an event (`this.hooks[event]`). -/
def hooksAt (h : Hooks) : Event → List Cb
  | .beforeGet => h.beforeGet
  | .afterSet => h.afterSet
  | .onClear => h.onClear
  | .onSet => h.onSet
  | .onError => h.onError

/-- Generation-1 `triggerHooks` loop at exhausted stack depth: the first
throwing callback's nested `onError` dispatch immediately overflows, and
the resulting `RangeError` escapes the loop. -/
def overflowRun : List Cb → List Nat × Bool
  | [] => ([], true)
  | cb :: rest =>
    if cb.throws then ([cb.id], false)
    else
      let q := overflowRun rest
      (cb.id :: q.1, q.2)

/-- Generation-1 `triggerHooks` loop (ctx.ts lines 86-97) over a callback
list, given the (level-constant) outcome `onErr` of a nested dispatch of
the `onError` callbacks. Each callback is invoked (its id recorded in the
trace); a throwing callback's error is redirected by dispatching the
`onError` callbacks — with no re-entrancy guard. If the nested dispatch
itself ended in an escaping exception, that exception aborts the loop and
escapes this dispatch too (second component `false`). -/
def runListTop (h : Hooks) (onErr : List Nat × Bool) : List Cb → List Nat × Bool
  | [] => ([], true)
  | cb :: rest =>
    if cb.throws then
      if onErr.2 then
        let q := runListTop h onErr rest
        (cb.id :: onErr.1 ++ q.1, q.2)
      else
        (cb.id :: onErr.1, false)
    else
      let q := runListTop h onErr rest
      (cb.id :: q.1, q.2)

/-- Generation-1 `triggerHooks` recursion, with `fuel` bounding the depth
of nested `onError` dispatches (the JavaScript call stack): at depth 0 any
nested dispatch overflows; at depth `n + 1` a nested dispatch runs the
`onError` callbacks with the remaining depth. -/
def runListV1 (h : Hooks) : Nat → List Cb → List Nat × Bool
  | 0 => overflowRun
  | n + 1 => runListTop h (runListV1 h n (hooksAt h .onError))

/-- Whether a generation-1 dispatch of an event completes without an
exception escaping to the code that called `triggerHooks`. -/
def dispatchOkV1 (h : Hooks) (fuel : Nat) (e : Event) : Bool :=
  (runListV1 h fuel (hooksAt h e)).2

/-- Generation-2 `triggerHooks` loop (ctx.ts lines 186-206) over a callback
list. A throwing callback is caught individually; when the event being
dispatched is not `onError`, the caught error is dispatched once to the
`onError` callbacks (whose own failures are caught and, thanks to the
`event !== 'onError'` guard, never re-dispatched). Returns the invocation
trace and the number of nested `onError` dispatches performed. Total: the
guard makes the recursion structural. -/
def runListV2 (h : Hooks) (e : Event) : List Cb → List Nat × Nat
  | [] => ([], 0)
  | cb :: rest =>
    let q := runListV2 h e rest
    if cb.throws then
      if e = .onError then
        (cb.id :: q.1, q.2)
      else
        (cb.id :: (h.onError.map Cb.id) ++ q.1, q.2 + 1)
    else
      (cb.id :: q.1, q.2)

/-- Generation-2 dispatch of an event: run its registered callback list. -/
def triggerV2 (h : Hooks) (e : Event) : List Nat × Nat :=
  runListV2 h e (hooksAt h e)

/-- A registry is benign at `onError` when none of its `onError` callbacks
throw; this is the condition under which generation-1 dispatch cannot blow
the stack. -/
def benign (h : Hooks) : Prop := ∀ cb ∈ h.onError, cb.throws = false

instance (h : Hooks) : Decidable (benign h) := by
  unfold benign; infer_instance

/-- Extensional model of a JavaScript `Map` used only through
get/set/delete/has/clear: point update. -/
def mapSet {α : Type} (m : String → Option α) (k : String) (v : α) :
    String → Option α :=
  fun k' => if k' = k then some v else m k'

/-- Point deletion in the extensional map model. -/
def mapDel {α : Type} (m : String → Option α) (k : String) :
    String → Option α :=
  fun k' => if k' = k then none else m k'

/-- A stored entry of the generation-1 storage map:
`{ value, expiry? }` where `expiry` is the effective TTL in milliseconds. -/
structure EntryV1 where
  value : Value
  expiry : Option Nat
  deriving Repr, DecidableEq

/-- A pending `setTimeout` scheduled by the generation-1 `set`: it will
remove `key` (via `clearKey`) once the context's clock reaches `fireAt`. -/
structure TimerV1 where
  key : String
  fireAt : Nat
  deriving Repr, DecidableEq

/-- Generation-1 `MyContext` state: the live storage map, the immutable
`defaultValues` mapping, the optional global expiry, the hook registry,
the pending TTL timers, and the current clock (milliseconds). -/
structure CtxV1 where
  storage : String → Option EntryV1
  defaultValues : String → Option Value
  globalExpiry : Option Nat
  hooks : Hooks
  timers : List TimerV1
  now : Nat

/-- A hook dispatch performed by an operation's own code: the event and the
key argument it was dispatched with (`none` for an argument-less dispatch
and for `onError`). -/
abbrev HookCall := Event × Option String

/-- Effective expiry of a generation-1 `set`: `ttl ?? this.globalExpiry`. -/
def effExpiry (c : CtxV1) : Option Nat → Option Nat
  | some t => some t
  | none => c.globalExpiry

/-- Generation-1 `set(key, value, ttl?)` (ctx.ts lines 99-114). Falsy
values are silently ignored. Otherwise the entry is stored, `afterSet` and
then `onSet` are dispatched, and — if the effective expiry is truthy
(nonzero) — a removal timer is scheduled. The whole body sits in a
try/catch whose catch dispatches `onError`: if a dispatch blows the stack,
the later statements do not run and the operation completes only if the
catch's own `onError` dispatch does. Returns the new state, the dispatch
log and whether the call returned without throwing to the caller. -/
def setV1 (fuel : Nat) (c : CtxV1) (key : String) (value : Value)
    (ttl : Option Nat) : CtxV1 × List HookCall × Bool :=
  if value.truthy = false then (c, [], true)
  else
    let expiry := effExpiry c ttl
    let c1 : CtxV1 := { c with storage := mapSet c.storage key ⟨value, expiry⟩ }
    if dispatchOkV1 c.hooks fuel .afterSet then
      if dispatchOkV1 c.hooks fuel .onSet then
        let c2 : CtxV1 :=
          match expiry with
          | some e =>
            if e = 0 then c1
            else { c1 with timers := c1.timers ++ [⟨key, c1.now + e⟩] }
          | none => c1
        (c2, [(.afterSet, some key), (.onSet, some key)], true)
      else
        (c1, [(.afterSet, some key), (.onSet, some key), (.onError, none)],
          dispatchOkV1 c.hooks fuel .onError)
    else
      (c1, [(.afterSet, some key), (.onError, none)],
        dispatchOkV1 c.hooks fuel .onError)

/-- Generation-1 `get(key)` (ctx.ts lines 116-133). Dispatches `beforeGet`,
returns the live entry's value if present, else the default value if the
key exists in `defaultValues`, else throws internally; the surrounding
catch dispatches `onError` and returns `undefined`. A stack overflow while
dispatching escapes `get` itself (final component `false`). -/
def getV1 (fuel : Nat) (c : CtxV1) (key : String) :
    Value × List HookCall × Bool :=
  if dispatchOkV1 c.hooks fuel .beforeGet then
    match c.storage key with
    | some e => (e.value, [(.beforeGet, some key)], true)
    | none =>
      match c.defaultValues key with
      | some d => (d, [(.beforeGet, some key)], true)
      | none =>
        (.undefined, [(.beforeGet, some key), (.onError, none)],
          dispatchOkV1 c.hooks fuel .onError)
  else
    (.undefined, [(.beforeGet, some key), (.onError, none)],
      dispatchOkV1 c.hooks fuel .onError)

/-- Generation-1 private `clearKey(key)` (ctx.ts lines 144-149): when the
key is live, delete it and then dispatch `onClear(key)`; otherwise do
nothing and dispatch nothing. -/
def clearKeyV1 (fuel : Nat) (c : CtxV1) (key : String) :
    CtxV1 × List HookCall × Bool :=
  match c.storage key with
  | some _ =>
    ({ c with storage := mapDel c.storage key }, [(.onClear, some key)],
      dispatchOkV1 c.hooks fuel .onClear)
  | none => (c, [], true)

/-- Generation-1 `clear(key?)` (ctx.ts lines 135-142). With no argument or
the star key: dispatch an argument-less `onClear`, then empty the storage
(the emptying does not happen if the dispatch throws, since `clear` has no
try/catch of its own). With a specific key: delegate to `clearKey`. -/
def clearV1 (fuel : Nat) (c : CtxV1) : Option String →
    CtxV1 × List HookCall × Bool
  | none =>
    if dispatchOkV1 c.hooks fuel .onClear then
      ({ c with storage := fun _ => none }, [(.onClear, none)], true)
    else (c, [(.onClear, none)], false)
  | some k =>
    if k = "*" then
      if dispatchOkV1 c.hooks fuel .onClear then
        ({ c with storage := fun _ => none }, [(.onClear, none)], true)
      else (c, [(.onClear, none)], false)
    else clearKeyV1 fuel c k

/-- Insert a pending timer into a list kept sorted by firing time (stable:
a timer scheduled later is placed after timers with the same firing time),
used to model the time-ordered processing of due `setTimeout` callbacks. -/
def insertByFire (x : TimerV1) : List TimerV1 → List TimerV1
  | [] => [x]
  | y :: ys => if y.fireAt ≤ x.fireAt then y :: insertByFire x ys
               else x :: y :: ys

/-- Stable sort of timers by firing time. -/
def sortByFire : List TimerV1 → List TimerV1
  | [] => []
  | x :: xs => insertByFire x (sortByFire xs)

/-- Advance the context's clock to time `t`: every pending timer whose
firing time has been reached runs its `setTimeout` callback — a `clearKey`
on its key — in firing-time order; the remaining timers stay pending.
An exception escaping a timer callback is swallowed by the event loop. -/
def advanceTo (fuel t : Nat) (c : CtxV1) : CtxV1 :=
  let due := sortByFire (c.timers.filter (fun tm => tm.fireAt ≤ t))
  let c1 := due.foldl (fun acc tm => (clearKeyV1 fuel acc tm.key).1)
    { c with timers := c.timers.filter (fun tm => ¬ tm.fireAt ≤ t) }
  { c1 with now := t }

/-- Generation-2 `MyContext` state (ctx.ts lines 155-260): storage entries
carry no expiry, and `defaultValues` is the options record itself. -/
structure CtxV2 where
  storage : String → Option Value
  defaultValues : String → Option Value
  hooks : Hooks

/-- Generation-2 `set(key, value)` (ctx.ts lines 208-221): only a strictly
`undefined` value is ignored; otherwise the value is stored and `afterSet`
then `onSet` are dispatched (total: generation-2 dispatch cannot throw). -/
def setV2 (c : CtxV2) (key : String) (value : Value) :
    CtxV2 × List HookCall :=
  if value = .undefined then (c, [])
  else
    ({ c with storage := mapSet c.storage key value },
      [(.afterSet, some key), (.onSet, some key)])

/-- Generation-2 `get(key)` (ctx.ts lines 223-241): dispatch `beforeGet`,
return the live value, else the default, else `undefined` directly. -/
def getV2 (c : CtxV2) (key : String) : Value × List HookCall :=
  match c.storage key with
  | some v => (v, [(.beforeGet, some key)])
  | none =>
    match c.defaultValues key with
    | some d => (d, [(.beforeGet, some key)])
    | none => (.undefined, [(.beforeGet, some key)])

/-- Generation-2 `clear(key | star)` (ctx.ts lines 243-257): an
argument-less `onClear` is dispatched unconditionally first; then the star
key empties the storage, and any other key delegates to `clearKey`, which
deletes the key and dispatches `onClear(key)` only when it was live. -/
def clearV2 (c : CtxV2) (key : String) : CtxV2 × List HookCall :=
  if key = "*" then
    ({ c with storage := fun _ => none }, [(.onClear, none)])
  else
    match c.storage key with
    | some _ =>
      ({ c with storage := mapDel c.storage key },
        [(.onClear, none), (.onClear, some key)])
    | none => (c, [(.onClear, none)])

/-- Headers of an inbound request that matter to identity resolution. -/
structure ReqHeaders where
  xSessionId : Option String
  authorization : Option String

/-- JavaScript `h || d` over an optional header string: an absent header is
`undefined` (falsy) and a present empty string is also falsy, so either
falls through to the fallback. -/
def jsHeaderOr (h : Option String) (d : String) : String :=
  match h with
  | some s => if s.isEmpty then d else s
  | none => d

/-- Identity-key resolution of the session-reuse middleware
(`context-middleware.ts`): the `x-session-id` header, `||` the
`authorization` header, `||` the literal `default-session`. -/
def resolveSessionId (r : ReqHeaders) : String :=
  jsHeaderOr r.xSessionId (jsHeaderOr r.authorization "default-session")

/-- Static configuration accepted by the session-reuse middleware
(`contextConfig`: the `MyContextOptions` of generation 1). -/
structure ContextConfig where
  defaultValues : String → Option Value
  expiry : Option Nat

/-- Generation-1 `MyContext` constructor
(`new MyContext(contextConfig)`, ctx.ts lines 69-80), taking the clock at
which the instance is created. -/
def newCtxV1 (cfg : Option ContextConfig) (now : Nat) : CtxV1 where
  storage := fun _ => none
  defaultValues := match cfg with
    | some c => c.defaultValues
    | none => fun _ => none
  globalExpiry := match cfg with
    | some c => c.expiry
    | none => none
  hooks := Hooks.empty
  timers := []
  now := now

/-- The module-level state of the session-reuse middleware: the
`contextStore` identity table mapping session ids to context instances, and
the heap of instances. Object identity is modelled by the index into the
append-only `contexts` list. -/
structure SessionServer where
  contextStore : String → Option Nat
  contexts : List CtxV1

/-- Session-reuse middleware state with no contexts created yet. -/
def SessionServer.empty : SessionServer := ⟨fun _ => none, []⟩

/-- One inbound request through the session-reuse middleware
(`context-middleware.ts`): resolve the session id, look it up in
`contextStore` — creating and inserting a fresh `MyContext(contextConfig)`
exactly when absent — then write the session id into the bound context via
`context.set('sessionId', sessionId)` before the downstream handlers run.
Returns the new state, the bound context's identity, and the dispatch log
of the middleware's own `set`. -/
def middlewareStep (cfg : Option ContextConfig) (fuel : Nat)
    (srv : SessionServer) (r : ReqHeaders) :
    SessionServer × Nat × List HookCall :=
  let sid := resolveSessionId r
  let pick : SessionServer × Nat :=
    match srv.contextStore sid with
    | some cid => (srv, cid)
    | none =>
      ({ contextStore := mapSet srv.contextStore sid srv.contexts.length,
         contexts := srv.contexts ++ [newCtxV1 cfg 0] },
        srv.contexts.length)
  let srv1 := pick.1
  let cid := pick.2
  match srv1.contexts[cid]? with
  | some c =>
    let s := setV1 fuel c "sessionId" (.str sid) none
    ({ srv1 with contexts := srv1.contexts.set cid s.1 }, cid, s.2.1)
  | none => (srv1, cid, [])

/-- An application handler's `req.context.set(k, v)` during a unit of work
bound to the context with identity `cid`. -/
def appSet (fuel : Nat) (srv : SessionServer) (cid : Nat) (k : String)
    (v : Value) : SessionServer :=
  match srv.contexts[cid]? with
  | some c => { srv with contexts := srv.contexts.set cid (setV1 fuel c k v none).1 }
  | none => srv

/-- An application handler's `req.context.get(k)` during a unit of work
bound to the context with identity `cid`. -/
def appGet (fuel : Nat) (srv : SessionServer) (cid : Nat) (k : String) :
    Value :=
  match srv.contexts[cid]? with
  | some c => (getV1 fuel c k).1
  | none => .undefined

/-- Well-formedness of the session-reuse middleware state: every identity
in the table points into the heap, no two identities share an instance, and
every instance's registry is benign at `onError` (no registered `onError`
callback throws). -/
def WfServer (srv : SessionServer) : Prop :=
  (∀ s c, srv.contextStore s = some c → c < srv.contexts.length) ∧
  (∀ s1 s2 c, srv.contextStore s1 = some c → srv.contextStore s2 = some c →
    s1 = s2) ∧
  (∀ c ∈ srv.contexts, benign c.hooks)

/-- The module-level state of the fresh-per-request middleware
(`dist/src/context-middleware.js`): the `contextStore` table keyed by the
generated uuid, over generation-2 contexts. -/
structure FreshServer where
  contextStore : String → Option Nat
  contexts : List CtxV2

/-- Fresh-per-request middleware state with no contexts created yet. -/
def FreshServer.empty : FreshServer := ⟨fun _ => none, []⟩

/-- Generation-2 `MyContext` constructor: the options record itself becomes
`defaultValues` (ctx.ts lines 166-176). -/
def newCtxV2 (options : String → Option Value) : CtxV2 where
  storage := fun _ => none
  defaultValues := options
  hooks := Hooks.empty

/-- One inbound request through the fresh-per-request middleware
(`dist/src/context-middleware.js` lines 67-77): generate a fresh uuid
(passed in here, with freshness as a hypothesis where needed), construct a
new `MyContext(options)`, insert it into `contextStore` under the uuid, and
write the uuid into the context under the key `contextId` before the
downstream handlers run. -/
def middleware8Step (options : String → Option Value) (srv : FreshServer)
    (uuid : String) : FreshServer × Nat × List HookCall :=
  let cid := srv.contexts.length
  let srv1 : FreshServer :=
    { contextStore := mapSet srv.contextStore uuid cid,
      contexts := srv.contexts ++ [newCtxV2 options] }
  match srv1.contexts[cid]? with
  | some c =>
    let s := setV2 c "contextId" (.str uuid)
    ({ srv1 with contexts := srv1.contexts.set cid s.1 }, cid, s.2)
  | none => (srv1, cid, [])

/-- An application handler's `req.context.set(k, v)` in the
fresh-per-request middleware's world. -/
def appSet8 (srv : FreshServer) (cid : Nat) (k : String) (v : Value) :
    FreshServer :=
  match srv.contexts[cid]? with
  | some c => { srv with contexts := srv.contexts.set cid (setV2 c k v).1 }
  | none => srv

/-- The `res.on('finish')` cleanup of the fresh-per-request middleware
(`dist/src/context-middleware.js` lines 78-83): inside
`asyncLocalStorage.exit`, run `context.clear(contextId)` — whose argument
is the uuid string, not the star key — and then delete the uuid from the
`contextStore` table. -/
def finish8 (srv : FreshServer) (uuid : String) (cid : Nat) : FreshServer :=
  let srv1 : FreshServer :=
    match srv.contexts[cid]? with
    | some c => { srv with contexts := srv.contexts.set cid (clearV2 c uuid).1 }
    | none => srv
  { srv1 with contextStore := mapDel srv1.contextStore uuid }

/-- Timers appended by one generation-1 `set` call: one timer at
`now + expiry` when the effective expiry is truthy, none otherwise. -/
def schedTimers (c : CtxV1) (k : String) (ttl : Option Nat) : List TimerV1 :=
  match effExpiry c ttl with
  | some e => if e = 0 then [] else [⟨k, c.now + e⟩]
  | none => []

/-- Fresh generation-1 context: no defaults, no global expiry, no hooks. -/
def emptyCtxV1 : CtxV1 where
  storage := fun _ => none
  defaultValues := fun _ => none
  globalExpiry := none
  hooks := Hooks.empty
  timers := []
  now := 0

/-- Fresh generation-2 context with no configured option values. -/
def emptyCtxV2 : CtxV2 where
  storage := fun _ => none
  defaultValues := fun _ => none
  hooks := Hooks.empty

/-- Registry whose only callback is a throwing one registered on `onError`:
the scenario the re-entrancy guard of the spec is about. -/
def loopHooks : Hooks := ⟨[], [], [], [], [⟨0, true⟩]⟩

/-- Registry with a throwing callback on `beforeGet`, `afterSet`, `onClear`
and `onError`. -/
def throwyHooks : Hooks := ⟨[⟨1, true⟩], [⟨2, true⟩], [⟨3, true⟩], [], [⟨0, true⟩]⟩

/-- Generation-1 context holding one live key, with `throwyHooks`. -/
def throwyCtx : CtxV1 :=
  { emptyCtxV1 with
      hooks := throwyHooks,
      storage := fun k => if k = "k" then some ⟨.str "v", none⟩ else none }

/-- Registry with a throwing `beforeGet` callback but a benign (non-throwing)
`onError` callback. -/
def benignHooks : Hooks := ⟨[⟨1, true⟩], [], [], [], [⟨0, false⟩]⟩

/-- Generation-1 context with `benignHooks` registered. -/
def benignCtx : CtxV1 := { emptyCtxV1 with hooks := benignHooks }

/-- Generation-1 context holding one live key `a` and nothing else. -/
def kvCtx : CtxV1 :=
  { emptyCtxV1 with
      storage := fun k => if k = "a" then some ⟨.str "x", none⟩ else none }

/-- Generation-2 context holding one live key `a` and nothing else. -/
def kvCtxV2 : CtxV2 :=
  { emptyCtxV2 with
      storage := fun k => if k = "a" then some (.str "x") else none }

/-- Store of the defaults-shadowing scenario:
`defaultValues = (theme: light)`. -/
def themeCtx : CtxV1 :=
  { emptyCtxV1 with
      defaultValues := fun k => if k = "theme" then some (.str "light") else none }

/-- State after `set(k, v1, 100)` on a fresh context at time 0. -/
def ttlCtxA : CtxV1 := (setV1 1 emptyCtxV1 "k" (.str "v1") (some 100)).1

/-- State after letting the clock reach 50 and then calling
`set(k, v2, 200)`: the second set stores `v2` and schedules its own timer
at 250, while the first set's timer (due at 100) is still pending. -/
def ttlCtxB : CtxV1 :=
  (setV1 1 (advanceTo 1 50 ttlCtxA) "k" (.str "v2") (some 200)).1

/-- Fresh-per-request middleware state after one request with uuid `u1`
whose handler stored `foo = bar` (before the response finished). -/
def freshAfterRequest : FreshServer :=
  appSet8 (middleware8Step (fun _ => none) FreshServer.empty "u1").1 0
    "foo" (Value.str "bar")

/-- The same state after the response-finished cleanup handler ran
(`context.clear(contextId); contextStore.delete(contextId)`). -/
def freshAfterFinish : FreshServer := finish8 freshAfterRequest "u1" 0

theorem overflowRun_no_throws (l : List Cb)
    (hl : ∀ cb ∈ l, cb.throws = false) :
    overflowRun l = (l.map Cb.id, true) := by
  induction l with
  | nil => rfl
  | cons cb rest ih =>
    have hc : cb.throws = false := hl cb (by simp)
    have hr : ∀ x ∈ rest, x.throws = false := fun x hx => hl x (by simp [hx])
    simp [overflowRun, hc, ih hr]

theorem runListTop_no_throws (h : Hooks) (p : List Nat × Bool) (l : List Cb)
    (hl : ∀ cb ∈ l, cb.throws = false) :
    runListTop h p l = (l.map Cb.id, true) := by
  induction l with
  | nil => rfl
  | cons cb rest ih =>
    have hc : cb.throws = false := hl cb (by simp)
    have hr : ∀ x ∈ rest, x.throws = false := fun x hx => hl x (by simp [hx])
    simp [runListTop, hc, ih hr]

theorem runListV1_no_throws (h : Hooks) (n : Nat) (l : List Cb)
    (hl : ∀ cb ∈ l, cb.throws = false) :
    runListV1 h n l = (l.map Cb.id, true) := by
  cases n with
  | zero => exact overflowRun_no_throws l hl
  | succ m => exact runListTop_no_throws h _ l hl

theorem runListTop_ok (h : Hooks) (p : List Nat × Bool) (hp : p.2 = true)
    (l : List Cb) : (runListTop h p l).2 = true := by
  induction l with
  | nil => rfl
  | cons cb rest ih =>
    by_cases hc : cb.throws = true
    · simp [runListTop, hc, hp, ih]
    · simp only [Bool.not_eq_true] at hc
      simp [runListTop, hc, ih]

theorem runListV1_ok_of_benign (h : Hooks) (hb : benign h) (n : Nat)
    (l : List Cb) (hn : 1 ≤ n) : (runListV1 h n l).2 = true := by
  obtain ⟨m, rfl⟩ : ∃ m, n = m + 1 := ⟨n - 1, by omega⟩
  have hp : runListV1 h m (hooksAt h .onError) = ((h.onError).map Cb.id, true) :=
    runListV1_no_throws h m (hooksAt h .onError) (fun x hx => hb x hx)
  show (runListTop h (runListV1 h m (hooksAt h .onError)) l).2 = true
  rw [hp]
  exact runListTop_ok h _ rfl l

theorem dispatchOkV1_of_benign (h : Hooks) (fuel : Nat) (e : Event)
    (hb : benign h) (hf : 1 ≤ fuel) : dispatchOkV1 h fuel e = true :=
  runListV1_ok_of_benign h hb fuel (hooksAt h e) hf

@[simp] theorem mapSet_self {α : Type} (m : String → Option α) (k : String)
    (v : α) : mapSet m k v k = some v := by simp [mapSet]

theorem mapSet_ne {α : Type} (m : String → Option α) (k k' : String) (v : α)
    (h : k' ≠ k) : mapSet m k v k' = m k' := by simp [mapSet, h]

@[simp] theorem mapDel_self {α : Type} (m : String → Option α) (k : String) :
    mapDel m k k = none := by simp [mapDel]

theorem mapDel_ne {α : Type} (m : String → Option α) (k k' : String)
    (h : k' ≠ k) : mapDel m k k' = m k' := by simp [mapDel, h]

theorem setV1_eq_of_benign (fuel : Nat) (c : CtxV1) (k : String) (v : Value)
    (ttl : Option Nat) (hb : benign c.hooks) (hf : 1 ≤ fuel)
    (hv : v.truthy = true) :
    setV1 fuel c k v ttl =
      ({ c with
          storage := mapSet c.storage k ⟨v, effExpiry c ttl⟩,
          timers := c.timers ++ schedTimers c k ttl },
       [(.afterSet, some k), (.onSet, some k)], true) := by
  have hd : ∀ e, dispatchOkV1 c.hooks fuel e = true :=
    fun e => dispatchOkV1_of_benign _ _ _ hb hf
  unfold setV1
  rw [hv]
  simp only [hd, Bool.true_eq_false, if_false, if_true]
  cases hE : effExpiry c ttl with
  | none => simp [schedTimers, hE]
  | some e =>
    by_cases he : e = 0
    · simp [schedTimers, hE, he]
    · simp [schedTimers, hE, he]

theorem setV1_falsy (fuel : Nat) (c : CtxV1) (k : String) (v : Value)
    (ttl : Option Nat) (hv : v.truthy = false) :
    setV1 fuel c k v ttl = (c, [], true) := by
  unfold setV1
  rw [hv]
  simp

theorem setV1_hooks (fuel : Nat) (c : CtxV1) (k : String) (v : Value)
    (ttl : Option Nat) : ((setV1 fuel c k v ttl).1).hooks = c.hooks := by
  unfold setV1
  dsimp only
  split
  · rfl
  · split
    · split
      · split <;> try rfl
        split <;> rfl
      · rfl
    · rfl

theorem setV1_defaultValues (fuel : Nat) (c : CtxV1) (k : String) (v : Value)
    (ttl : Option Nat) :
    ((setV1 fuel c k v ttl).1).defaultValues = c.defaultValues := by
  unfold setV1
  dsimp only
  split
  · rfl
  · split
    · split
      · split <;> try rfl
        split <;> rfl
      · rfl
    · rfl

theorem setV1_storage (fuel : Nat) (c : CtxV1) (k : String) (v : Value)
    (ttl : Option Nat) (hv : v.truthy = true) :
    ((setV1 fuel c k v ttl).1).storage =
      mapSet c.storage k ⟨v, effExpiry c ttl⟩ := by
  unfold setV1
  rw [hv]
  dsimp only
  simp only [Bool.true_eq_false, if_false]
  split
  · split
    · split <;> try rfl
      split <;> rfl
    · rfl
  · rfl

theorem getV1_found (fuel : Nat) (c : CtxV1) (k : String) (e : EntryV1)
    (hb : benign c.hooks) (hf : 1 ≤ fuel) (hs : c.storage k = some e) :
    getV1 fuel c k = (e.value, [(.beforeGet, some k)], true) := by
  unfold getV1
  rw [dispatchOkV1_of_benign _ _ _ hb hf]
  simp [hs]

theorem getV1_default (fuel : Nat) (c : CtxV1) (k : String) (d : Value)
    (hb : benign c.hooks) (hf : 1 ≤ fuel) (hs : c.storage k = none)
    (hd : c.defaultValues k = some d) :
    getV1 fuel c k = (d, [(.beforeGet, some k)], true) := by
  unfold getV1
  rw [dispatchOkV1_of_benign _ _ _ hb hf]
  simp [hs, hd]

theorem getV1_missing (fuel : Nat) (c : CtxV1) (k : String)
    (hb : benign c.hooks) (hf : 1 ≤ fuel) (hs : c.storage k = none)
    (hd : c.defaultValues k = none) :
    getV1 fuel c k =
      (.undefined, [(.beforeGet, some k), (.onError, none)], true) := by
  unfold getV1
  rw [dispatchOkV1_of_benign _ _ _ hb hf]
  simp [hs, hd, dispatchOkV1_of_benign _ _ _ hb hf]

theorem clearV1_star_of_benign (fuel : Nat) (c : CtxV1) (hb : benign c.hooks)
    (hf : 1 ≤ fuel) :
    clearV1 fuel c (some "*") =
      ({ c with storage := fun _ => none }, [(.onClear, none)], true) := by
  unfold clearV1
  simp [dispatchOkV1_of_benign _ _ _ hb hf]

theorem clearV1_noarg_of_benign (fuel : Nat) (c : CtxV1) (hb : benign c.hooks)
    (hf : 1 ≤ fuel) :
    clearV1 fuel c none =
      ({ c with storage := fun _ => none }, [(.onClear, none)], true) := by
  unfold clearV1
  simp [dispatchOkV1_of_benign _ _ _ hb hf]

theorem clearV1_key_present (fuel : Nat) (c : CtxV1) (k : String)
    (e : EntryV1) (hk : k ≠ "*") (hs : c.storage k = some e) :
    clearV1 fuel c (some k) =
      ({ c with storage := mapDel c.storage k }, [(.onClear, some k)],
        dispatchOkV1 c.hooks fuel .onClear) := by
  unfold clearV1 clearKeyV1
  simp [hk, hs]

theorem clearV1_key_absent (fuel : Nat) (c : CtxV1) (k : String)
    (hk : k ≠ "*") (hs : c.storage k = none) :
    clearV1 fuel c (some k) = (c, [], true) := by
  unfold clearV1 clearKeyV1
  simp [hk, hs]

theorem clearKeyV1_hooks (fuel : Nat) (c : CtxV1) (k : String) :
    ((clearKeyV1 fuel c k).1).hooks = c.hooks := by
  unfold clearKeyV1
  split <;> rfl

theorem clearKeyV1_defaultValues (fuel : Nat) (c : CtxV1) (k : String) :
    ((clearKeyV1 fuel c k).1).defaultValues = c.defaultValues := by
  unfold clearKeyV1
  split <;> rfl

theorem clearKeyV1_storage_self (fuel : Nat) (c : CtxV1) (k : String) :
    ((clearKeyV1 fuel c k).1).storage k = none := by
  unfold clearKeyV1
  cases hs : c.storage k with
  | some e => simp [hs, mapDel]
  | none => simp [hs]

theorem clearKeyV1_storage_ne (fuel : Nat) (c : CtxV1) (k k' : String)
    (h : k' ≠ k) : ((clearKeyV1 fuel c k).1).storage k' = c.storage k' := by
  unfold clearKeyV1
  cases hs : c.storage k with
  | some e => simp [hs, mapDel, h]
  | none => simp [hs]

theorem foldlClear_hooks (fuel : Nat) (due : List TimerV1) (c : CtxV1) :
    (due.foldl (fun acc tm => (clearKeyV1 fuel acc tm.key).1) c).hooks =
      c.hooks := by
  induction due generalizing c with
  | nil => rfl
  | cons tm rest ih =>
    rw [List.foldl_cons, ih, clearKeyV1_hooks]

theorem foldlClear_defaultValues (fuel : Nat) (due : List TimerV1)
    (c : CtxV1) :
    (due.foldl (fun acc tm => (clearKeyV1 fuel acc tm.key).1) c).defaultValues
      = c.defaultValues := by
  induction due generalizing c with
  | nil => rfl
  | cons tm rest ih =>
    rw [List.foldl_cons, ih, clearKeyV1_defaultValues]

theorem foldlClear_storage_ne (fuel : Nat) (due : List TimerV1) (c : CtxV1)
    (K : String) (hK : ∀ tm ∈ due, tm.key ≠ K) :
    (due.foldl (fun acc tm => (clearKeyV1 fuel acc tm.key).1) c).storage K =
      c.storage K := by
  induction due generalizing c with
  | nil => rfl
  | cons tm rest ih =>
    rw [List.foldl_cons]
    rw [ih _ (fun x hx => hK x (by simp [hx]))]
    exact clearKeyV1_storage_ne fuel c tm.key K
      (fun h => hK tm (by simp) h.symm)

theorem foldlClear_storage_none (fuel : Nat) (due : List TimerV1) (c : CtxV1)
    (K : String) (h : c.storage K = none) :
    (due.foldl (fun acc tm => (clearKeyV1 fuel acc tm.key).1) c).storage K =
      none := by
  induction due generalizing c with
  | nil => exact h
  | cons tm rest ih =>
    rw [List.foldl_cons]
    apply ih
    by_cases hk : K = tm.key
    · rw [hk]; exact clearKeyV1_storage_self fuel c tm.key
    · rw [clearKeyV1_storage_ne fuel c tm.key K hk]; exact h

theorem foldlClear_storage_mem (fuel : Nat) (due : List TimerV1) (c : CtxV1)
    (K : String) (hmem : K ∈ due.map TimerV1.key) :
    (due.foldl (fun acc tm => (clearKeyV1 fuel acc tm.key).1) c).storage K =
      none := by
  induction due generalizing c with
  | nil => simp at hmem
  | cons tm rest ih =>
    rw [List.foldl_cons]
    by_cases hk : K = tm.key
    · apply foldlClear_storage_none
      rw [hk]; exact clearKeyV1_storage_self fuel c tm.key
    · apply ih
      simp only [List.map_cons, List.mem_cons] at hmem
      rcases hmem with h | h
      · exact absurd h hk
      · exact h

theorem mem_insertByFire (x y : TimerV1) (l : List TimerV1) :
    y ∈ insertByFire x l ↔ y = x ∨ y ∈ l := by
  induction l with
  | nil => simp [insertByFire]
  | cons z zs ih =>
    unfold insertByFire
    split
    · simp only [List.mem_cons, ih]
      tauto
    · simp [List.mem_cons]

theorem mem_sortByFire (y : TimerV1) (l : List TimerV1) :
    y ∈ sortByFire l ↔ y ∈ l := by
  induction l with
  | nil => simp [sortByFire]
  | cons z zs ih =>
    unfold sortByFire
    rw [mem_insertByFire, ih]
    simp

theorem advanceTo_hooks (fuel t : Nat) (c : CtxV1) :
    (advanceTo fuel t c).hooks = c.hooks := by
  unfold advanceTo
  dsimp only
  rw [foldlClear_hooks]

theorem advanceTo_defaultValues (fuel t : Nat) (c : CtxV1) :
    (advanceTo fuel t c).defaultValues = c.defaultValues := by
  unfold advanceTo
  dsimp only
  rw [foldlClear_defaultValues]

theorem advanceTo_storage_ne (fuel t : Nat) (c : CtxV1) (K : String)
    (h : ∀ tm ∈ c.timers, tm.fireAt ≤ t → tm.key ≠ K) :
    (advanceTo fuel t c).storage K = c.storage K := by
  unfold advanceTo
  dsimp only
  rw [foldlClear_storage_ne]
  intro tm hm
  rw [mem_sortByFire] at hm
  rw [List.mem_filter] at hm
  exact h tm hm.1 (by simpa using hm.2)

theorem advanceTo_storage_due (fuel t : Nat) (c : CtxV1) (K : String)
    (h : ∃ tm ∈ c.timers, tm.fireAt ≤ t ∧ tm.key = K) :
    (advanceTo fuel t c).storage K = none := by
  unfold advanceTo
  dsimp only
  apply foldlClear_storage_mem
  obtain ⟨tm, hmem, hle, hkey⟩ := h
  rw [List.mem_map]
  exact ⟨tm, by rw [mem_sortByFire, List.mem_filter]; exact ⟨hmem, by simpa using hle⟩, hkey⟩

theorem benign_empty : benign Hooks.empty := by
  intro cb hcb
  simp [Hooks.empty] at hcb

theorem setV1_ok_of_benign (fuel : Nat) (c : CtxV1) (k : String) (v : Value)
    (ttl : Option Nat) (hb : benign c.hooks) (hf : 1 ≤ fuel) :
    (setV1 fuel c k v ttl).2.2 = true := by
  by_cases hv : v.truthy = true
  · rw [setV1_eq_of_benign fuel c k v ttl hb hf hv]
  · rw [setV1_falsy fuel c k v ttl (by simpa using hv)]

theorem getV1_ok_of_benign (fuel : Nat) (c : CtxV1) (k : String)
    (hb : benign c.hooks) (hf : 1 ≤ fuel) :
    (getV1 fuel c k).2.2 = true := by
  cases hs : c.storage k with
  | some e => rw [getV1_found fuel c k e hb hf hs]
  | none =>
    cases hd : c.defaultValues k with
    | some d => rw [getV1_default fuel c k d hb hf hs hd]
    | none => rw [getV1_missing fuel c k hb hf hs hd]

theorem clearV1_ok_of_benign (fuel : Nat) (c : CtxV1) (karg : Option String)
    (hb : benign c.hooks) (hf : 1 ≤ fuel) :
    (clearV1 fuel c karg).2.2 = true := by
  cases karg with
  | none => rw [clearV1_noarg_of_benign fuel c hb hf]
  | some k =>
    rcases eq_or_ne k "*" with hk | hk
    · subst hk
      rw [clearV1_star_of_benign fuel c hb hf]
    · cases hs : c.storage k with
      | some e =>
        rw [clearV1_key_present fuel c k e hk hs]
        exact dispatchOkV1_of_benign _ _ _ hb hf
      | none => rw [clearV1_key_absent fuel c k hk hs]

theorem clearV1_hooks (fuel : Nat) (c : CtxV1) (karg : Option String) :
    ((clearV1 fuel c karg).1).hooks = c.hooks := by
  cases karg with
  | none =>
    by_cases hok : dispatchOkV1 c.hooks fuel .onClear = true
    · simp [clearV1, hok]
    · simp [clearV1, hok]
  | some k =>
    rcases eq_or_ne k "*" with hk | hk
    · subst hk
      by_cases hok : dispatchOkV1 c.hooks fuel .onClear = true
      · simp [clearV1, hok]
      · simp [clearV1, hok]
    · simp [clearV1, hk, clearKeyV1_hooks]

theorem clearV1_defaultValues (fuel : Nat) (c : CtxV1) (karg : Option String) :
    ((clearV1 fuel c karg).1).defaultValues = c.defaultValues := by
  cases karg with
  | none =>
    by_cases hok : dispatchOkV1 c.hooks fuel .onClear = true
    · simp [clearV1, hok]
    · simp [clearV1, hok]
  | some k =>
    rcases eq_or_ne k "*" with hk | hk
    · subst hk
      by_cases hok : dispatchOkV1 c.hooks fuel .onClear = true
      · simp [clearV1, hok]
      · simp [clearV1, hok]
    · simp [clearV1, hk, clearKeyV1_defaultValues]

theorem set_concat_length {α : Type} (l : List α) (a b : α) :
    (l ++ [a]).set l.length b = l ++ [b] := by
  induction l with
  | nil => rfl
  | cons x xs ih => simp [List.set, ih]

theorem ne_empty_of_isEmpty_false (s : String) (h : s.isEmpty = false) :
    s ≠ "" := by
  intro he
  subst he
  exact absurd h (by decide)

theorem str_truthy_of_ne_empty (s : String) (h : s ≠ "") :
    (Value.str s).truthy = true := by
  show (!s.isEmpty) = true
  cases he : s.isEmpty with
  | true => exact absurd ((String.isEmpty_iff s).mp he) h
  | false => rfl

theorem resolveSessionId_ne_empty (r : ReqHeaders) :
    resolveSessionId r ≠ "" := by
  unfold resolveSessionId jsHeaderOr
  cases r.xSessionId with
  | none =>
    cases r.authorization with
    | none => decide
    | some a =>
      cases ha : a.isEmpty with
      | true => simp [ha]
      | false => simp [ha, ne_empty_of_isEmpty_false a ha]
  | some s =>
    cases hs : s.isEmpty with
    | true =>
      simp only [hs, if_true]
      cases r.authorization with
      | none => decide
      | some a =>
        cases ha : a.isEmpty with
        | true => simp [ha]
        | false => simp [ha, ne_empty_of_isEmpty_false a ha]
    | false => simp [hs, ne_empty_of_isEmpty_false s hs]

theorem middlewareStep_new (cfg : Option ContextConfig) (fuel : Nat)
    (srv : SessionServer) (r : ReqHeaders)
    (hnew : srv.contextStore (resolveSessionId r) = none) :
    middlewareStep cfg fuel srv r =
      ({ contextStore := mapSet srv.contextStore (resolveSessionId r)
            srv.contexts.length,
         contexts := srv.contexts ++
           [(setV1 fuel (newCtxV1 cfg 0) "sessionId"
              (Value.str (resolveSessionId r)) none).1] },
       srv.contexts.length,
       (setV1 fuel (newCtxV1 cfg 0) "sessionId"
          (Value.str (resolveSessionId r)) none).2.1) := by
  unfold middlewareStep
  dsimp only
  rw [hnew]
  dsimp only
  rw [List.getElem?_concat_length]
  dsimp only
  rw [set_concat_length]

theorem middlewareStep_old (cfg : Option ContextConfig) (fuel : Nat)
    (srv : SessionServer) (r : ReqHeaders) (cid : Nat) (c : CtxV1)
    (hold : srv.contextStore (resolveSessionId r) = some cid)
    (hc : srv.contexts[cid]? = some c) :
    middlewareStep cfg fuel srv r =
      ({ srv with
          contexts := srv.contexts.set cid
            (setV1 fuel c "sessionId" (Value.str (resolveSessionId r)) none).1 },
       cid,
       (setV1 fuel c "sessionId" (Value.str (resolveSessionId r)) none).2.1) := by
  unfold middlewareStep
  dsimp only
  rw [hold]
  dsimp only
  rw [hc]

theorem middlewareStep_cid_of_store (cfg : Option ContextConfig) (fuel : Nat)
    (srv : SessionServer) (r : ReqHeaders) (cid : Nat)
    (hold : srv.contextStore (resolveSessionId r) = some cid) :
    (middlewareStep cfg fuel srv r).2.1 = cid := by
  unfold middlewareStep
  dsimp only
  rw [hold]
  dsimp only
  cases h : srv.contexts[cid]? <;> simp [h]

theorem middlewareStep_store_old (cfg : Option ContextConfig) (fuel : Nat)
    (srv : SessionServer) (r : ReqHeaders) (cid : Nat)
    (hold : srv.contextStore (resolveSessionId r) = some cid) :
    (middlewareStep cfg fuel srv r).1.contextStore = srv.contextStore := by
  unfold middlewareStep
  dsimp only
  rw [hold]
  dsimp only
  cases h : srv.contexts[cid]? <;> simp [h]

theorem appSet_spec (fuel : Nat) (srv : SessionServer) (cid : Nat)
    (K : String) (V : Value) (c : CtxV1)
    (hc : srv.contexts[cid]? = some c) :
    (appSet fuel srv cid K V).contexts[cid]? =
      some (setV1 fuel c K V none).1 ∧
    (∀ j, j ≠ cid →
      (appSet fuel srv cid K V).contexts[j]? = srv.contexts[j]?) ∧
    (appSet fuel srv cid K V).contextStore = srv.contextStore := by
  have hlt : cid < srv.contexts.length := (List.getElem?_eq_some.mp hc).1
  unfold appSet
  rw [hc]
  refine ⟨?_, ?_, rfl⟩
  · dsimp only
    rw [List.getElem?_set_eq_of_lt]
    exact hlt
  · intro j hj
    dsimp only
    exact List.getElem?_set_ne (Ne.symm hj)

theorem appGet_eq (fuel : Nat) (srv : SessionServer) (cid : Nat) (K : String)
    (c : CtxV1) (hc : srv.contexts[cid]? = some c) :
    appGet fuel srv cid K = (getV1 fuel c K).1 := by
  unfold appGet
  rw [hc]

theorem step_spec (cfg : Option ContextConfig) (fuel : Nat)
    (srv : SessionServer) (r : ReqHeaders) (hwf : WfServer srv)
    (_hf : 1 ≤ fuel) :
    WfServer (middlewareStep cfg fuel srv r).1 ∧
    (middlewareStep cfg fuel srv r).1.contextStore (resolveSessionId r) =
      some (middlewareStep cfg fuel srv r).2.1 ∧
    (middlewareStep cfg fuel srv r).2.1 <
      (middlewareStep cfg fuel srv r).1.contexts.length ∧
    srv.contexts.length ≤ (middlewareStep cfg fuel srv r).1.contexts.length ∧
    (∀ s, s ≠ resolveSessionId r →
      (middlewareStep cfg fuel srv r).1.contextStore s = srv.contextStore s) ∧
    (∀ j, j ≠ (middlewareStep cfg fuel srv r).2.1 →
      (middlewareStep cfg fuel srv r).1.contexts[j]? = srv.contexts[j]?) ∧
    (∃ c, (middlewareStep cfg fuel srv r).1.contexts[
        (middlewareStep cfg fuel srv r).2.1]? = some c ∧
      benign c.hooks ∧
      (c.storage "sessionId").map EntryV1.value =
        some (Value.str (resolveSessionId r))) := by
  obtain ⟨hbound, hinj, hben⟩ := hwf
  have htr : (Value.str (resolveSessionId r)).truthy = true :=
    str_truthy_of_ne_empty _ (resolveSessionId_ne_empty r)
  cases hlook : srv.contextStore (resolveSessionId r) with
  | none =>
    rw [middlewareStep_new cfg fuel srv r hlook]
    dsimp only
    refine ⟨⟨?_, ?_, ?_⟩, ?_, ?_, ?_, ?_, ?_, ?_⟩
    · intro s c h
      dsimp only at h ⊢
      unfold mapSet at h
      simp only [List.length_append, List.length_cons, List.length_nil]
      by_cases hs : s = resolveSessionId r
      · rw [if_pos hs] at h
        simp only [Option.some.injEq] at h
        omega
      · rw [if_neg hs] at h
        have := hbound s c h
        omega
    · intro s1 s2 c h1 h2
      dsimp only at h1 h2
      unfold mapSet at h1 h2
      by_cases hs1 : s1 = resolveSessionId r <;>
        by_cases hs2 : s2 = resolveSessionId r
      · rw [hs1, hs2]
      · rw [if_pos hs1] at h1
        rw [if_neg hs2] at h2
        simp only [Option.some.injEq] at h1
        have := hbound s2 c h2
        omega
      · rw [if_neg hs1] at h1
        rw [if_pos hs2] at h2
        simp only [Option.some.injEq] at h2
        have := hbound s1 c h1
        omega
      · rw [if_neg hs1] at h1
        rw [if_neg hs2] at h2
        exact hinj s1 s2 c h1 h2
    · intro c hc
      dsimp only at hc
      rw [List.mem_append] at hc
      rcases hc with hc | hc
      · exact hben c hc
      · rw [List.mem_singleton] at hc
        rw [hc, setV1_hooks]
        exact benign_empty
    · exact mapSet_self ..
    · simp
    · simp
    · intro s hs
      exact mapSet_ne _ _ _ _ hs
    · intro j hj
      rcases Nat.lt_or_ge j srv.contexts.length with hlt | hge
      · rw [List.getElem?_append]
        simp [hlt]
      · have h1 : srv.contexts[j]? = none := List.getElem?_eq_none hge
        have h2 : (srv.contexts ++
            [(setV1 fuel (newCtxV1 cfg 0) "sessionId"
              (Value.str (resolveSessionId r)) none).1])[j]? = none := by
          apply List.getElem?_eq_none
          simp only [List.length_append, List.length_cons, List.length_nil]
          omega
        rw [h1, h2]
    · refine ⟨_, List.getElem?_concat_length _ _, ?_, ?_⟩
      · rw [setV1_hooks]
        exact benign_empty
      · rw [setV1_storage _ _ _ _ _ htr, mapSet_self]
        rfl
  | some cid =>
    have hlt : cid < srv.contexts.length := hbound _ cid hlook
    obtain ⟨c0, hc0⟩ : ∃ c0, srv.contexts[cid]? = some c0 :=
      ⟨srv.contexts[cid], List.getElem?_eq_getElem hlt⟩
    have hben0 : benign c0.hooks :=
      hben c0 (List.mem_iff_getElem?.mpr ⟨cid, hc0⟩)
    rw [middlewareStep_old cfg fuel srv r cid c0 hlook hc0]
    dsimp only
    refine ⟨⟨?_, ?_, ?_⟩, ?_, ?_, ?_, ?_, ?_, ?_⟩
    · intro s c h
      rw [List.length_set]
      exact hbound s c h
    · exact hinj
    · intro c hc
      rcases List.mem_or_eq_of_mem_set hc with hc | hc
      · exact hben c hc
      · rw [hc, setV1_hooks]
        exact hben0
    · exact hlook
    · rw [List.length_set]
      exact hlt
    · rw [List.length_set]
    · intro s hs
      rfl
    · intro j hj
      exact List.getElem?_set_ne (Ne.symm hj)
    · refine ⟨(setV1 fuel c0 "sessionId"
          (Value.str (resolveSessionId r)) none).1, ?_, ?_, ?_⟩
      · rw [List.getElem?_set_eq_of_lt]
        exact hlt
      · rw [setV1_hooks]
        exact hben0
      · rw [setV1_storage _ _ _ _ _ htr, mapSet_self]
        rfl

theorem runListV2_sublist (h : Hooks) (e : Event) (l : List Cb) :
    List.Sublist (l.map Cb.id) (runListV2 h e l).1 := by
  induction l with
  | nil => simp [runListV2]
  | cons cb rest ih =>
    unfold runListV2
    dsimp only
    by_cases hc : cb.throws = true
    · rw [if_pos hc]
      by_cases he : e = Event.onError
      · rw [if_pos he]
        exact List.Sublist.cons₂ _ ih
      · rw [if_neg he]
        exact List.Sublist.cons₂ _ (ih.trans (List.sublist_append_right _ _))
    · rw [if_neg hc]
      exact List.Sublist.cons₂ _ ih

theorem runListV2_count (h : Hooks) (e : Event) (l : List Cb) :
    (runListV2 h e l).2 =
      if e = Event.onError then 0
      else (l.filter (fun cb => cb.throws)).length := by
  induction l with
  | nil => simp [runListV2]
  | cons cb rest ih =>
    unfold runListV2
    dsimp only
    by_cases hc : cb.throws = true
    · by_cases he : e = Event.onError
      · rw [if_pos hc, if_pos he]
        dsimp only
        rw [ih, if_pos he, if_pos he]
      · rw [if_pos hc, if_neg he]
        dsimp only
        rw [ih, if_neg he, if_neg he]
        simp [hc]
    · simp only [Bool.not_eq_true] at hc
      rw [if_neg (by simp [hc])]
      dsimp only
      rw [ih]
      by_cases he : e = Event.onError
      · rw [if_pos he, if_pos he]
      · rw [if_neg he, if_neg he]
        simp [hc]

theorem overflowRun_false (l : List Cb) (hl : ∃ cb ∈ l, cb.throws = true) :
    (overflowRun l).2 = false := by
  induction l with
  | nil => simp at hl
  | cons cb rest ih =>
    by_cases hc : cb.throws = true
    · simp [overflowRun, hc]
    · obtain ⟨x, hx, hxt⟩ := hl
      rcases List.mem_cons.mp hx with rfl | hx
      · exact absurd hxt hc
      · simp only [Bool.not_eq_true] at hc
        simp [overflowRun, hc, ih ⟨x, hx, hxt⟩]

theorem runListTop_false (h : Hooks) (p : List Nat × Bool) (hp : p.2 = false)
    (l : List Cb) (hl : ∃ cb ∈ l, cb.throws = true) :
    (runListTop h p l).2 = false := by
  induction l with
  | nil => simp at hl
  | cons cb rest ih =>
    by_cases hc : cb.throws = true
    · simp [runListTop, hc, hp]
    · obtain ⟨x, hx, hxt⟩ := hl
      rcases List.mem_cons.mp hx with rfl | hx
      · exact absurd hxt hc
      · simp only [Bool.not_eq_true] at hc
        simp [runListTop, hc, ih ⟨x, hx, hxt⟩]

theorem runListV1_onError_diverges (h : Hooks) (n : Nat)
    (hl : ∃ cb ∈ h.onError, cb.throws = true) :
    (runListV1 h n (hooksAt h Event.onError)).2 = false := by
  induction n with
  | zero => exact overflowRun_false _ hl
  | succ m ih =>
    show (runListTop h (runListV1 h m (hooksAt h Event.onError))
      (hooksAt h Event.onError)).2 = false
    exact runListTop_false h _ ih _ hl

/-- C1 counterexample: in the generation-1 (TTL-bearing) variant the
`if (!value) return` guard in `set` drops every falsy value, not only
absent/undefined ones. `false` is a defined value, yet `set('flag', false)`
neither creates nor modifies the entry, and the immediate `get('flag')`
returns `undefined` rather than `false` — refuting the claim that the only
silently ignored values are absent/undefined ones. -/
theorem c1_counterexample :
    Value.vbool false ≠ Value.undefined ∧
    (setV1 1 emptyCtxV1 "flag" (Value.vbool false) none).1.storage "flag"
      = none ∧
    (getV1 1 (setV1 1 emptyCtxV1 "flag" (Value.vbool false) none).1
      "flag").1 = Value.undefined := by
  exact ⟨by decide, by decide, by decide⟩

/-- C1 amended: the generation-2 `set` silently ignores exactly the
undefined value (leaving the state untouched), and for every other defined
value `set(K, V)` followed immediately by `get(K)` returns V; the
generation-1 `set` silently ignores every falsy value (undefined, null,
false, 0, the empty string) — leaving the whole context untouched — and for
every truthy value `set(K, V)` followed immediately by `get(K)` returns V. -/
theorem c1_set_get_amended :
    (∀ (fuel : Nat) (c : CtxV1) (k : String) (v : Value) (ttl : Option Nat),
      benign c.hooks → 1 ≤ fuel → v.truthy = true →
      (getV1 fuel (setV1 fuel c k v ttl).1 k).1 = v) ∧
    (∀ (fuel : Nat) (c : CtxV1) (k : String) (v : Value) (ttl : Option Nat),
      v.truthy = false → setV1 fuel c k v ttl = (c, [], true)) ∧
    (∀ (c : CtxV2) (k : String) (v : Value), v ≠ Value.undefined →
      (getV2 (setV2 c k v).1 k).1 = v) ∧
    (∀ (c : CtxV2) (k : String), setV2 c k Value.undefined = (c, [])) := by
  refine ⟨?_, ?_, ?_, ?_⟩
  · intro fuel c k v ttl hb hf hv
    have hst : (setV1 fuel c k v ttl).1.storage k
        = some ⟨v, effExpiry c ttl⟩ := by
      rw [setV1_storage fuel c k v ttl hv]
      exact mapSet_self ..
    have hbh : benign ((setV1 fuel c k v ttl).1).hooks := by
      rw [setV1_hooks]
      exact hb
    rw [getV1_found fuel _ k ⟨v, effExpiry c ttl⟩ hbh hf hst]
  · intro fuel c k v ttl hv
    exact setV1_falsy fuel c k v ttl hv
  · intro c k v hv
    simp [setV2, getV2, hv, mapSet]
  · intro c k
    simp [setV2]

/-- C1 witness: the amended set-then-get law evaluated on fresh contexts of
both generations. -/
theorem c1_set_get_amended_witness :
    (getV1 1 (setV1 1 emptyCtxV1 "k" (Value.str "v") none).1 "k").1
      = Value.str "v" ∧
    (getV2 (setV2 emptyCtxV2 "k" (Value.num 3)).1 "k").1 = Value.num 3 :=
  ⟨c1_set_get_amended.1 1 emptyCtxV1 "k" (Value.str "v") none (by decide)
      (by decide) (by decide),
    c1_set_get_amended.2.2.1 emptyCtxV2 "k" (Value.num 3) (by decide)⟩

/-- C4 counterexample: the generation-1 `triggerHooks` has no re-entrancy
guard. With a single throwing callback (id 0) registered on `onError`,
dispatching `onError` at stack budget 3 invokes that callback four times —
the error raised inside the `onError` callback is itself re-dispatched to
`onError` each time — and the dispatch ends in a stack overflow (`false`)
instead of terminating after one invocation, refuting the claim for the
generation-1 dispatcher it cites. -/
theorem c4_counterexample :
    runListV1 loopHooks 3 (hooksAt loopHooks Event.onError)
      = ([0, 0, 0, 0], false) ∧
    runListV1 loopHooks 3 (hooksAt loopHooks Event.onError) ≠ ([0], true) := by
  exact ⟨by decide, by decide⟩

/-- C4 amended: in the generation-2 `triggerHooks` (which carries the
`event !== 'onError'` guard) a throwing callback does not prevent the
remaining callbacks of the same dispatch from running (the registered
callback ids form a sublist of the invocation trace, in order), each
throwing callback triggers exactly one nested `onError` dispatch when the
event is not `onError`, and an error raised inside an `onError` callback is
never re-dispatched (zero nested dispatches), so dispatch always
terminates; the generation-1 `triggerHooks` lacks the guard, and when some
registered `onError` callback throws, its `onError` dispatch overflows the
stack at every stack budget — it never terminates normally. -/
theorem c4_hook_dispatch_amended :
    (∀ (h : Hooks) (e : Event),
      List.Sublist ((hooksAt h e).map Cb.id) (triggerV2 h e).1) ∧
    (∀ (h : Hooks) (e : Event),
      (triggerV2 h e).2 =
        if e = Event.onError then 0
        else ((hooksAt h e).filter (fun cb => cb.throws)).length) ∧
    (∀ (h : Hooks) (n : Nat), (∃ cb ∈ h.onError, cb.throws = true) →
      (runListV1 h n (hooksAt h Event.onError)).2 = false) := by
  exact ⟨fun h e => runListV2_sublist h e _,
    fun h e => runListV2_count h e _,
    fun h n hl => runListV1_onError_diverges h n hl⟩

/-- C4 witness: the amended dispatch law applied at a registry whose only
`onError` callback throws: at stack budget 5 the generation-1 dispatch
still overflows. -/
theorem c4_hook_dispatch_amended_witness :
    (runListV1 loopHooks 5 (hooksAt loopHooks Event.onError)).2 = false :=
  c4_hook_dispatch_amended.2.2 loopHooks 5 ⟨⟨0, true⟩, by decide, rfl⟩

/-- C3 counterexample: with a throwing callback registered on `beforeGet`,
`afterSet` and `onClear`, and a throwing callback registered on `onError`,
the generation-1 public operations all propagate an exception to the
caller (the unguarded `onError` re-dispatch overflows the stack and the
resulting error escapes `set`, `get` and `clear`), refuting the claim that
they never raise. -/
theorem c3_counterexample :
    (setV1 9 throwyCtx "k" (Value.str "w") none).2.2 = false ∧
    (getV1 9 throwyCtx "k").2.2 = false ∧
    (clearV1 9 throwyCtx (some "k")).2.2 = false := by
  exact ⟨by decide, by decide, by decide⟩

/-- C3 amended: provided no registered `onError` callback throws, the
generation-1 `set`, `get` and `clear` never raise to the caller — hook
callback failures and the internal missing-key error of `get` are caught —
and `get` of a key with no live entry and no default degrades to the
absence sentinel `undefined` while dispatching `onError`. -/
theorem c3_no_throw_amended :
    ∀ (fuel : Nat) (c : CtxV1) (k : String) (v : Value) (ttl : Option Nat)
      (karg : Option String),
      benign c.hooks → 1 ≤ fuel →
      (setV1 fuel c k v ttl).2.2 = true ∧
      (getV1 fuel c k).2.2 = true ∧
      (clearV1 fuel c karg).2.2 = true ∧
      (c.storage k = none → c.defaultValues k = none →
        (getV1 fuel c k).1 = Value.undefined ∧
        (Event.onError, (none : Option String)) ∈ (getV1 fuel c k).2.1) := by
  intro fuel c k v ttl karg hb hf
  refine ⟨setV1_ok_of_benign fuel c k v ttl hb hf,
    getV1_ok_of_benign fuel c k hb hf,
    clearV1_ok_of_benign fuel c karg hb hf, ?_⟩
  intro hs hd
  rw [getV1_missing fuel c k hb hf hs hd]
  exact ⟨rfl, by simp⟩

/-- C3 witness: the amended no-throw law evaluated on a context whose
`beforeGet` callback throws but whose `onError` callback is benign. -/
theorem c3_no_throw_amended_witness :
    (setV1 2 benignCtx "k" (Value.str "v") none).2.2 = true ∧
    (getV1 2 benignCtx "k").2.2 = true ∧
    (clearV1 2 benignCtx (some "k")).2.2 = true ∧
    ((getV1 2 benignCtx "k").1 = Value.undefined ∧
      (Event.onError, (none : Option String)) ∈ (getV1 2 benignCtx "k").2.1) := by
  have h := c3_no_throw_amended 2 benignCtx "k" (Value.str "v") none
    (some "k") (by decide) (by decide)
  exact ⟨h.1, h.2.1, h.2.2.1, h.2.2.2 (by decide) (by decide)⟩

/-- C5 counterexample: in the generation-2 `clear`, clearing a key that is
absent from live storage is not hook-silent: the unconditional
`triggerHooks('onClear')` at the top of `clear` fires an argument-less
`onClear` dispatch even though nothing is removed, refuting the claim for
the generation-2 `clear` it cites. -/
theorem c5_counterexample :
    emptyCtxV2.storage "missing" = none ∧
    (clearV2 emptyCtxV2 "missing").2 = [(Event.onClear, none)] ∧
    (clearV2 emptyCtxV2 "missing").2 ≠ [] := by
  exact ⟨rfl, by decide, by decide⟩

/-- C5 amended: the generation-1 `clear` behaves exactly as claimed — star
or no argument fires one argument-less `onClear` and empties the store, a
present key is removed alone and fires `onClear(key)` only, and an absent
key is a silent no-op firing nothing. The generation-2 `clear` instead
fires an argument-less `onClear` dispatch unconditionally first: clearing a
present key fires `onClear()` and then `onClear(key)`, clearing an absent
key leaves storage untouched but still fires `onClear()`, and a call
without an argument does not exist in its signature. -/
theorem c5_clear_semantics_amended :
    (∀ (fuel : Nat) (c : CtxV1), benign c.hooks → 1 ≤ fuel →
      (∀ k', ((clearV1 fuel c none).1).storage k' = none) ∧
      (clearV1 fuel c none).2.1 = [(Event.onClear, none)] ∧
      (∀ k', ((clearV1 fuel c (some "*")).1).storage k' = none) ∧
      (clearV1 fuel c (some "*")).2.1 = [(Event.onClear, none)]) ∧
    (∀ (fuel : Nat) (c : CtxV1) (k : String) (e : EntryV1), k ≠ "*" →
      c.storage k = some e →
      ((clearV1 fuel c (some k)).1).storage k = none ∧
      (∀ k', k' ≠ k →
        ((clearV1 fuel c (some k)).1).storage k' = c.storage k') ∧
      (clearV1 fuel c (some k)).2.1 = [(Event.onClear, some k)]) ∧
    (∀ (fuel : Nat) (c : CtxV1) (k : String), k ≠ "*" →
      c.storage k = none → clearV1 fuel c (some k) = (c, [], true)) ∧
    (∀ c : CtxV2,
      (∀ k', ((clearV2 c "*").1).storage k' = none) ∧
      (clearV2 c "*").2 = [(Event.onClear, none)]) ∧
    (∀ (c : CtxV2) (k : String) (v : Value), k ≠ "*" → c.storage k = some v →
      ((clearV2 c k).1).storage k = none ∧
      (∀ k', k' ≠ k → ((clearV2 c k).1).storage k' = c.storage k') ∧
      (clearV2 c k).2 = [(Event.onClear, none), (Event.onClear, some k)]) ∧
    (∀ (c : CtxV2) (k : String), k ≠ "*" → c.storage k = none →
      clearV2 c k = (c, [(Event.onClear, none)])) := by
  refine ⟨?_, ?_, ?_, ?_, ?_, ?_⟩
  · intro fuel c hb hf
    rw [clearV1_noarg_of_benign fuel c hb hf,
      clearV1_star_of_benign fuel c hb hf]
    exact ⟨fun k' => rfl, rfl, fun k' => rfl, rfl⟩
  · intro fuel c k e hk hs
    rw [clearV1_key_present fuel c k e hk hs]
    exact ⟨mapDel_self .., fun k' h => mapDel_ne _ _ _ h, rfl⟩
  · intro fuel c k hk hs
    exact clearV1_key_absent fuel c k hk hs
  · intro c
    exact ⟨fun k' => by simp [clearV2], by simp [clearV2]⟩
  · intro c k v hk hs
    refine ⟨by simp [clearV2, hk, hs, mapDel], ?_, by simp [clearV2, hk, hs]⟩
    intro k' h
    simp [clearV2, hk, hs, mapDel, h]
  · intro c k hk hs
    simp [clearV2, hk, hs]

/-- C5 witness: the amended clear laws evaluated on one-entry stores of
both generations, at a present and at an absent key. -/
theorem c5_clear_semantics_amended_witness :
    ((clearV1 1 kvCtx (some "a")).1).storage "a" = none ∧
    (clearV1 1 kvCtx (some "a")).2.1 = [(Event.onClear, some "a")] ∧
    clearV1 1 kvCtx (some "b") = (kvCtx, [], true) ∧
    (clearV2 kvCtxV2 "a").2
      = [(Event.onClear, none), (Event.onClear, some "a")] ∧
    clearV2 kvCtxV2 "b" = (kvCtxV2, [(Event.onClear, none)]) := by
  have h2 := c5_clear_semantics_amended.2.1 1 kvCtx "a" ⟨Value.str "x", none⟩
    (by decide) (by decide)
  have h3 := c5_clear_semantics_amended.2.2.1 1 kvCtx "b" (by decide)
    (by decide)
  have h5 := c5_clear_semantics_amended.2.2.2.2.1 kvCtxV2 "a" (Value.str "x")
    (by decide) (by decide)
  have h6 := c5_clear_semantics_amended.2.2.2.2.2 kvCtxV2 "b" (by decide)
    (by decide)
  exact ⟨h2.1, h2.2.2, h3, h5.2.2, h6⟩

/-- C6 (confirmed): a live entry always shadows the default for the same
key; after clearing a key its configured default is returned by `get`
again; after clearing everything all defaults remain queryable; `set` and
`clear` never change the `defaultValues` mapping; and the concrete
theme-light/dark scenario evaluates as the claim states. -/
theorem c6_default_shadowing :
    (∀ (fuel : Nat) (c : CtxV1) (k : String) (e : EntryV1),
      benign c.hooks → 1 ≤ fuel → c.storage k = some e →
      (getV1 fuel c k).1 = e.value) ∧
    (∀ (fuel : Nat) (c : CtxV1) (k : String) (d : Value),
      benign c.hooks → 1 ≤ fuel → c.defaultValues k = some d →
      (getV1 fuel (clearV1 fuel c (some k)).1 k).1 = d) ∧
    (∀ (fuel : Nat) (c : CtxV1) (k : String) (d : Value),
      benign c.hooks → 1 ≤ fuel → c.defaultValues k = some d →
      (getV1 fuel (clearV1 fuel c none).1 k).1 = d) ∧
    (∀ (fuel : Nat) (c : CtxV1) (k : String) (v : Value) (ttl : Option Nat),
      ((setV1 fuel c k v ttl).1).defaultValues = c.defaultValues) ∧
    (∀ (fuel : Nat) (c : CtxV1) (karg : Option String),
      ((clearV1 fuel c karg).1).defaultValues = c.defaultValues) ∧
    ((getV1 1 themeCtx "theme").1 = Value.str "light" ∧
      (getV1 1 (setV1 1 themeCtx "theme" (Value.str "dark") none).1
        "theme").1 = Value.str "dark" ∧
      (getV1 1 (clearV1 1 (setV1 1 themeCtx "theme" (Value.str "dark")
        none).1 (some "theme")).1 "theme").1 = Value.str "light") := by
  refine ⟨?_, ?_, ?_, ?_, ?_, by decide, by decide, by decide⟩
  · intro fuel c k e hb hf hs
    rw [getV1_found fuel c k e hb hf hs]
  · intro fuel c k d hb hf hd
    have hbh : benign ((clearV1 fuel c (some k)).1).hooks := by
      rw [clearV1_hooks]
      exact hb
    have hdd : ((clearV1 fuel c (some k)).1).defaultValues k = some d := by
      rw [clearV1_defaultValues]
      exact hd
    have hst : ((clearV1 fuel c (some k)).1).storage k = none := by
      rcases eq_or_ne k "*" with hk | hk
      · subst hk
        rw [clearV1_star_of_benign fuel c hb hf]
      · cases hs : c.storage k with
        | some e =>
          rw [clearV1_key_present fuel c k e hk hs]
          exact mapDel_self ..
        | none =>
          rw [clearV1_key_absent fuel c k hk hs]
          exact hs
    rw [getV1_default fuel _ k d hbh hf hst hdd]
  · intro fuel c k d hb hf hd
    rw [clearV1_noarg_of_benign fuel c hb hf]
    have hbh : benign ({ c with storage := fun _ => none } : CtxV1).hooks := hb
    rw [getV1_default fuel _ k d hbh hf rfl hd]
  · intro fuel c k v ttl
    exact setV1_defaultValues fuel c k v ttl
  · intro fuel c karg
    exact clearV1_defaultValues fuel c karg

/-- C6 witness: shadowing and default-resurfacing evaluated at concrete
one-entry and defaults-only stores. -/
theorem c6_default_shadowing_witness :
    (getV1 1 kvCtx "a").1 = Value.str "x" ∧
    (getV1 1 (clearV1 1 themeCtx (some "theme")).1 "theme").1
      = Value.str "light" :=
  ⟨c6_default_shadowing.1 1 kvCtx "a" ⟨Value.str "x", none⟩ (by decide)
      (by decide) (by decide),
    c6_default_shadowing.2.1 1 themeCtx "theme" (Value.str "light")
      (by decide) (by decide) (by decide)⟩

/-- C9 counterexample: `set(k, v1, 100)` at time 0, then `set(k, v2, 200)`
at time 50. The claim asserts `get(k)` returns `v2` at every time strictly
before 50 + 200; but the first set's still-pending timer fires at time 100
and removes the key, so at time 120 `get(k)` already returns `undefined`,
not `v2`. (The second conjunct exhibits the live entry `v2` immediately
after the second set, showing it was stored and then expired early.) -/
theorem c9_counterexample :
    ttlCtxB.now = 50 ∧
    ttlCtxB.storage "k" = some ⟨Value.str "v2", some 200⟩ ∧
    (120 : Nat) < 50 + 200 ∧
    (getV1 1 (advanceTo 1 120 ttlCtxB) "k").1 = Value.undefined ∧
    Value.undefined ≠ Value.str "v2" := by
  exact ⟨by decide, by decide, by decide, by decide, by decide⟩

/-- C9 amended: after `set(K, V, T)` with a positive TTL and a truthy V,
provided no expiry scheduled by an earlier `set` of the same key is still
pending, `get(K)` returns V at every time strictly before T milliseconds
have elapsed and returns the default-or-absence at time T; and a later
`set` on the same key does not cancel the expiration scheduled by an
earlier `set` — the earlier timer stays pending (which is exactly what can
remove the newer value early). -/
theorem c9_ttl_amended :
    ∀ (fuel : Nat) (c : CtxV1) (K : String) (V : Value) (T : Nat),
      benign c.hooks → 1 ≤ fuel → V.truthy = true → 0 < T →
      (∀ tm ∈ c.timers, tm.key ≠ K) →
      (∀ t, c.now ≤ t → t < c.now + T →
        (getV1 fuel (advanceTo fuel t (setV1 fuel c K V (some T)).1) K).1
          = V) ∧
      ((getV1 fuel (advanceTo fuel (c.now + T)
          (setV1 fuel c K V (some T)).1) K).1
        = (match c.defaultValues K with
           | some d => d
           | none => Value.undefined)) ∧
      (∀ (W : Value) (T2 : Nat), W.truthy = true → T2 ≠ 0 →
        ((setV1 fuel (setV1 fuel c K V (some T)).1 K W (some T2)).1).timers
          = ((setV1 fuel c K V (some T)).1).timers ++
            [⟨K, ((setV1 fuel c K V (some T)).1).now + T2⟩]) := by
  intro fuel c K V T hb hf hv hT hpend
  have hTne : T ≠ 0 := by omega
  have hset := setV1_eq_of_benign fuel c K V (some T) hb hf hv
  have hsched : schedTimers c K (some T) = [⟨K, c.now + T⟩] := by
    simp [schedTimers, effExpiry, hTne]
  rw [hset, hsched] at *
  dsimp only
  refine ⟨?_, ?_, ?_⟩
  · intro t ht1 ht2
    have hne : ∀ tm ∈ c.timers ++ [(⟨K, c.now + T⟩ : TimerV1)],
        tm.fireAt ≤ t → tm.key ≠ K := by
      intro tm hm hle
      rcases List.mem_append.mp hm with hm | hm
      · exact hpend tm hm
      · rw [List.mem_singleton] at hm
        subst hm
        dsimp only at hle
        omega
    have hgs := advanceTo_storage_ne fuel t
      { c with
          storage := mapSet c.storage K ⟨V, effExpiry c (some T)⟩,
          timers := c.timers ++ [⟨K, c.now + T⟩] } K hne
    have hbh : benign (advanceTo fuel t
        { c with
            storage := mapSet c.storage K ⟨V, effExpiry c (some T)⟩,
            timers := c.timers ++ [⟨K, c.now + T⟩] } : CtxV1).hooks := by
      rw [advanceTo_hooks]
      exact hb
    rw [getV1_found fuel _ K ⟨V, effExpiry c (some T)⟩ hbh hf
      (by rw [hgs]; exact mapSet_self ..)]
  · have hdue : (advanceTo fuel (c.now + T)
        { c with
            storage := mapSet c.storage K ⟨V, effExpiry c (some T)⟩,
            timers := c.timers ++ [⟨K, c.now + T⟩] } : CtxV1).storage K
        = none :=
      advanceTo_storage_due fuel (c.now + T) _ K
        ⟨⟨K, c.now + T⟩, by simp, le_refl _, rfl⟩
    have hbh : benign (advanceTo fuel (c.now + T)
        { c with
            storage := mapSet c.storage K ⟨V, effExpiry c (some T)⟩,
            timers := c.timers ++ [⟨K, c.now + T⟩] } : CtxV1).hooks := by
      rw [advanceTo_hooks]
      exact hb
    have hdv : (advanceTo fuel (c.now + T)
        { c with
            storage := mapSet c.storage K ⟨V, effExpiry c (some T)⟩,
            timers := c.timers ++ [⟨K, c.now + T⟩] } : CtxV1).defaultValues
        = c.defaultValues := by
      rw [advanceTo_defaultValues]
    cases hdK : c.defaultValues K with
    | some d =>
      rw [getV1_default fuel _ K d hbh hf hdue (by rw [hdv]; exact hdK)]
    | none =>
      rw [getV1_missing fuel _ K hbh hf hdue (by rw [hdv]; exact hdK)]
  · intro W T2 hW hT2
    rw [setV1_eq_of_benign fuel
      { c with
          storage := mapSet c.storage K ⟨V, effExpiry c (some T)⟩,
          timers := c.timers ++ [⟨K, c.now + T⟩] }
      K W (some T2) hb hf hW]
    dsimp only
    simp [schedTimers, effExpiry, hT2]

/-- C9 witness: the amended TTL law at a fresh context — the value is
still returned at time 50 after `set(k, v, 100)` at time 0, and gone at
time 100. -/
theorem c9_ttl_amended_witness :
    (getV1 1 (advanceTo 1 50 (setV1 1 emptyCtxV1 "k" (Value.str "v")
      (some 100)).1) "k").1 = Value.str "v" ∧
    (getV1 1 (advanceTo 1 100 (setV1 1 emptyCtxV1 "k" (Value.str "v")
      (some 100)).1) "k").1 = Value.undefined := by
  have h := c9_ttl_amended 1 emptyCtxV1 "k" (Value.str "v") 100 (by decide)
    (by decide) (by decide) (by decide) (by decide)
  exact ⟨h.1 50 (by decide) (by decide), h.2.1⟩

/-- C2 (confirmed): in the session-reuse middleware, two units of work
whose resolved identity keys differ are bound to different `MyContext`
instances, and after the first sets K to V1 and the second sets K to V2,
reading K under the first identity yields V1 and under the second yields
V2 — no cross-observation. (The values are ones the generation-1 `set`
guard accepts, i.e. truthy; the state after each middleware pass and each
handler write is named by an equation hypothesis.) -/
theorem c2_session_isolation :
    ∀ (cfg : Option ContextConfig) (fuel : Nat) (srv : SessionServer)
      (r1 r2 : ReqHeaders) (K : String) (V1 V2 : Value)
      (srvA : SessionServer) (cidA : Nat) (srvB : SessionServer)
      (cidB : Nat) (srvC srvD : SessionServer),
      WfServer srv → 1 ≤ fuel →
      resolveSessionId r1 ≠ resolveSessionId r2 →
      V1.truthy = true → V2.truthy = true →
      (middlewareStep cfg fuel srv r1).1 = srvA →
      (middlewareStep cfg fuel srv r1).2.1 = cidA →
      (middlewareStep cfg fuel srvA r2).1 = srvB →
      (middlewareStep cfg fuel srvA r2).2.1 = cidB →
      appSet fuel srvB cidA K V1 = srvC →
      appSet fuel srvC cidB K V2 = srvD →
      cidA ≠ cidB ∧
      appGet fuel srvD cidA K = V1 ∧
      appGet fuel srvD cidB K = V2 := by
  intro cfg fuel srv r1 r2 K V1 V2 srvA cidA srvB cidB srvC srvD
  intro hwf hf hne hv1 hv2 hA1 hA2 hB1 hB2 hC hD
  obtain ⟨hwfA, hstA, hltA, hlenA, hpresSA, hpresCA, cA, hcA, hbenA, hsidA⟩ :=
    step_spec cfg fuel srv r1 hwf hf
  simp only [hA1, hA2] at hwfA hstA hltA hlenA hpresSA hpresCA hcA
  obtain ⟨hwfB, hstB, hltB, hlenB, hpresSB, hpresCB, cB, hcB, hbenB, hsidB⟩ :=
    step_spec cfg fuel srvA r2 hwfA hf
  simp only [hB1, hB2] at hwfB hstB hltB hlenB hpresSB hpresCB hcB
  have hstAB : srvB.contextStore (resolveSessionId r1) = some cidA := by
    rw [hpresSB (resolveSessionId r1) hne]
    exact hstA
  have hneq : cidA ≠ cidB := by
    intro h
    exact hne (hwfB.2.1 _ _ cidB (h ▸ hstAB) hstB)
  have hcAB : srvB.contexts[cidA]? = some cA := by
    rw [hpresCB cidA hneq]
    exact hcA
  obtain ⟨hC1, hC2, hC3⟩ := appSet_spec fuel srvB cidA K V1 cA hcAB
  simp only [hC] at hC1 hC2 hC3
  have hcBC : srvC.contexts[cidB]? = some cB := by
    rw [hC2 cidB (Ne.symm hneq)]
    exact hcB
  obtain ⟨hD1, hD2, hD3⟩ := appSet_spec fuel srvC cidB K V2 cB hcBC
  simp only [hD] at hD1 hD2 hD3
  have hcAD : srvD.contexts[cidA]? = some (setV1 fuel cA K V1 none).1 := by
    rw [hD2 cidA hneq]
    exact hC1
  refine ⟨hneq, ?_, ?_⟩
  · rw [appGet_eq fuel srvD cidA K _ hcAD]
    have hbh : benign ((setV1 fuel cA K V1 none).1).hooks := by
      rw [setV1_hooks]
      exact hbenA
    have hst : ((setV1 fuel cA K V1 none).1).storage K
        = some ⟨V1, effExpiry cA none⟩ := by
      rw [setV1_storage fuel cA K V1 none hv1]
      exact mapSet_self ..
    rw [getV1_found fuel _ K ⟨V1, effExpiry cA none⟩ hbh hf hst]
  · rw [appGet_eq fuel srvD cidB K _ hD1]
    have hbh : benign ((setV1 fuel cB K V2 none).1).hooks := by
      rw [setV1_hooks]
      exact hbenB
    have hst : ((setV1 fuel cB K V2 none).1).storage K
        = some ⟨V2, effExpiry cB none⟩ := by
      rw [setV1_storage fuel cB K V2 none hv2]
      exact mapSet_self ..
    rw [getV1_found fuel _ K ⟨V2, effExpiry cB none⟩ hbh hf hst]

/-- C2 witness: two requests with session ids user1 and user2 through the
session-reuse middleware starting from the empty module state; each
handler writes its own value under the key `id` and reads back only its
own. -/
theorem c2_session_isolation_witness :
    (middlewareStep none 1 SessionServer.empty ⟨some "user1", none⟩).2.1 ≠
      (middlewareStep none 1
        (middlewareStep none 1 SessionServer.empty ⟨some "user1", none⟩).1
        ⟨some "user2", none⟩).2.1 ∧
    appGet 1
      (appSet 1
        (appSet 1
          (middlewareStep none 1
            (middlewareStep none 1 SessionServer.empty
              ⟨some "user1", none⟩).1 ⟨some "user2", none⟩).1
          (middlewareStep none 1 SessionServer.empty
            ⟨some "user1", none⟩).2.1 "id" (Value.str "1"))
        (middlewareStep none 1
          (middlewareStep none 1 SessionServer.empty
            ⟨some "user1", none⟩).1 ⟨some "user2", none⟩).2.1
        "id" (Value.str "2"))
      (middlewareStep none 1 SessionServer.empty ⟨some "user1", none⟩).2.1
      "id" = Value.str "1" ∧
    appGet 1
      (appSet 1
        (appSet 1
          (middlewareStep none 1
            (middlewareStep none 1 SessionServer.empty
              ⟨some "user1", none⟩).1 ⟨some "user2", none⟩).1
          (middlewareStep none 1 SessionServer.empty
            ⟨some "user1", none⟩).2.1 "id" (Value.str "1"))
        (middlewareStep none 1
          (middlewareStep none 1 SessionServer.empty
            ⟨some "user1", none⟩).1 ⟨some "user2", none⟩).2.1
        "id" (Value.str "2"))
      (middlewareStep none 1
        (middlewareStep none 1 SessionServer.empty
          ⟨some "user1", none⟩).1 ⟨some "user2", none⟩).2.1
      "id" = Value.str "2" := by
  refine c2_session_isolation none 1 SessionServer.empty
    ⟨some "user1", none⟩ ⟨some "user2", none⟩ "id"
    (Value.str "1") (Value.str "2") _ _ _ _ _ _
    ?_ (by decide) (by decide) (by decide) (by decide)
    rfl rfl rfl rfl rfl rfl
  refine ⟨?_, ?_, ?_⟩
  · intro s c h
    exact absurd h (by simp [SessionServer.empty])
  · intro s1 s2 c h1 h2
    exact absurd h1 (by simp [SessionServer.empty])
  · intro c hc
    exact absurd hc (by simp [SessionServer.empty])

/-- C7 counterexample: a request carrying a present but empty
`x-session-id` header together with an authorization header resolves to
the authorization token, not to the (present) session header: the `||`
chain in the middleware skips any falsy header value, so presence alone
does not give the session header precedence. -/
theorem c7_counterexample :
    (⟨some "", some "tok"⟩ : ReqHeaders).xSessionId = some "" ∧
    resolveSessionId ⟨some "", some "tok"⟩ = "tok" ∧
    ("tok" : String) ≠ "" := by
  exact ⟨rfl, by decide, by decide⟩

/-- C7 amended: the middleware resolves the identity key by strict
precedence over non-empty headers — the `x-session-id` header when present
and non-empty, else the authorization header when present and non-empty,
else the fixed `default-session` identity — and then looks the key up in
the identity table, creating and inserting a new context exactly when the
key is absent (the bound handle is the freshly appended instance) and
reusing the stored instance otherwise; a second request carrying the same
resolved identity key is bound to the same instance as the first. -/
theorem c7_identity_resolution_amended :
    (∀ (r : ReqHeaders) (s : String), r.xSessionId = some s → s ≠ "" →
      resolveSessionId r = s) ∧
    (∀ (r : ReqHeaders) (a : String),
      (r.xSessionId = none ∨ r.xSessionId = some "") →
      r.authorization = some a → a ≠ "" → resolveSessionId r = a) ∧
    (∀ r : ReqHeaders,
      (r.xSessionId = none ∨ r.xSessionId = some "") →
      (r.authorization = none ∨ r.authorization = some "") →
      resolveSessionId r = "default-session") ∧
    (∀ (cfg : Option ContextConfig) (fuel : Nat) (srv : SessionServer)
      (r : ReqHeaders),
      srv.contextStore (resolveSessionId r) = none →
      (middlewareStep cfg fuel srv r).1.contexts.length
        = srv.contexts.length + 1 ∧
      (middlewareStep cfg fuel srv r).2.1 = srv.contexts.length ∧
      (middlewareStep cfg fuel srv r).1.contextStore (resolveSessionId r)
        = some srv.contexts.length) ∧
    (∀ (cfg : Option ContextConfig) (fuel : Nat) (srv : SessionServer)
      (r : ReqHeaders) (cid : Nat),
      srv.contextStore (resolveSessionId r) = some cid →
      cid < srv.contexts.length →
      (middlewareStep cfg fuel srv r).2.1 = cid ∧
      (middlewareStep cfg fuel srv r).1.contexts.length
        = srv.contexts.length ∧
      (middlewareStep cfg fuel srv r).1.contextStore = srv.contextStore) ∧
    (∀ (cfg : Option ContextConfig) (fuel : Nat) (srv : SessionServer)
      (r1 r2 : ReqHeaders),
      resolveSessionId r1 = resolveSessionId r2 →
      (middlewareStep cfg fuel (middlewareStep cfg fuel srv r1).1 r2).2.1
        = (middlewareStep cfg fuel srv r1).2.1) := by
  have h0 : ("" : String).isEmpty = true := by decide
  refine ⟨?_, ?_, ?_, ?_, ?_, ?_⟩
  · intro r s hx hs
    have he : s.isEmpty = false := by
      cases he : s.isEmpty with
      | true => exact absurd ((String.isEmpty_iff s).mp he) hs
      | false => rfl
    simp [resolveSessionId, jsHeaderOr, hx, he]
  · intro r a hx ha hae
    have he : a.isEmpty = false := by
      cases he : a.isEmpty with
      | true => exact absurd ((String.isEmpty_iff a).mp he) hae
      | false => rfl
    rcases hx with hx | hx <;>
      simp [resolveSessionId, jsHeaderOr, hx, ha, he, h0]
  · intro r hx ha
    rcases hx with hx | hx <;> rcases ha with ha | ha <;>
      simp [resolveSessionId, jsHeaderOr, hx, ha, h0]
  · intro cfg fuel srv r h
    rw [middlewareStep_new cfg fuel srv r h]
    refine ⟨by simp, rfl, ?_⟩
    exact mapSet_self ..
  · intro cfg fuel srv r cid h hlt
    obtain ⟨c0, hc0⟩ : ∃ c0, srv.contexts[cid]? = some c0 :=
      ⟨srv.contexts[cid], List.getElem?_eq_getElem hlt⟩
    rw [middlewareStep_old cfg fuel srv r cid c0 h hc0]
    exact ⟨rfl, by simp, rfl⟩
  · intro cfg fuel srv r1 r2 heq
    cases h : srv.contextStore (resolveSessionId r1) with
    | some cid =>
      rw [middlewareStep_cid_of_store cfg fuel srv r1 cid h]
      have hst : (middlewareStep cfg fuel srv r1).1.contextStore
          (resolveSessionId r2) = some cid := by
        rw [middlewareStep_store_old cfg fuel srv r1 cid h, ← heq]
        exact h
      exact middlewareStep_cid_of_store cfg fuel _ r2 cid hst
    | none =>
      rw [middlewareStep_new cfg fuel srv r1 h]
      have hst : (mapSet srv.contextStore (resolveSessionId r1)
          srv.contexts.length) (resolveSessionId r2)
          = some srv.contexts.length := by
        rw [← heq]
        exact mapSet_self ..
      exact middlewareStep_cid_of_store cfg fuel _ r2 srv.contexts.length hst

/-- C7 witness: precedence, creation and reuse evaluated from the empty
module state with the session id s1. -/
theorem c7_identity_resolution_amended_witness :
    resolveSessionId ⟨some "s1", some "auth"⟩ = "s1" ∧
    (middlewareStep none 1 SessionServer.empty ⟨some "s1", none⟩).2.1 = 0 ∧
    (middlewareStep none 1 SessionServer.empty
      ⟨some "s1", none⟩).1.contexts.length = 1 ∧
    (middlewareStep none 1
      (middlewareStep none 1 SessionServer.empty ⟨some "s1", none⟩).1
      ⟨some "s1", none⟩).2.1
      = (middlewareStep none 1 SessionServer.empty
          ⟨some "s1", none⟩).2.1 := by
  have h1 := c7_identity_resolution_amended.1 ⟨some "s1", some "auth"⟩ "s1"
    rfl (by decide)
  have h4 := c7_identity_resolution_amended.2.2.2.1 none 1
    SessionServer.empty ⟨some "s1", none⟩ rfl
  have h6 := c7_identity_resolution_amended.2.2.2.2.2 none 1
    SessionServer.empty ⟨some "s1", none⟩ ⟨some "s1", none⟩ rfl
  exact ⟨h1, h4.2.1, h4.1, h6⟩

/-- C10 (confirmed): on every inbound request the session-reuse middleware
writes the resolved identity into the bound context under the reserved key
`sessionId` before any handler runs — dispatching `afterSet` and then
`onSet` exactly once each — and the live `sessionId` entry is what `get`
returns, shadowing any default configured under that name; the
fresh-per-request middleware does the same for the reserved key
`contextId` with the generated uuid. -/
theorem c10_reserved_key_write :
    (∀ (cfg : Option ContextConfig) (fuel : Nat) (srv : SessionServer)
      (r : ReqHeaders), WfServer srv → 1 ≤ fuel →
      (middlewareStep cfg fuel srv r).2.2
        = [(Event.afterSet, some "sessionId"),
           (Event.onSet, some "sessionId")] ∧
      appGet fuel (middlewareStep cfg fuel srv r).1
        (middlewareStep cfg fuel srv r).2.1 "sessionId"
        = Value.str (resolveSessionId r)) ∧
    (∀ (options : String → Option Value) (srv : FreshServer) (uuid : String),
      (middleware8Step options srv uuid).2.2
        = [(Event.afterSet, some "contextId"),
           (Event.onSet, some "contextId")] ∧
      ((middleware8Step options srv uuid).1.contexts[
          (middleware8Step options srv uuid).2.1]?).map
        (fun c => c.storage "contextId") = some (some (Value.str uuid)) ∧
      ((middleware8Step options srv uuid).1.contexts[
          (middleware8Step options srv uuid).2.1]?).map
        (fun c => (getV2 c "contextId").1) = some (Value.str uuid)) := by
  constructor
  · intro cfg fuel srv r hwf hf
    have htr : (Value.str (resolveSessionId r)).truthy = true :=
      str_truthy_of_ne_empty _ (resolveSessionId_ne_empty r)
    constructor
    · obtain ⟨hbound, hinj, hben⟩ := hwf
      cases hlook : srv.contextStore (resolveSessionId r) with
      | none =>
        rw [middlewareStep_new cfg fuel srv r hlook]
        dsimp only
        rw [setV1_eq_of_benign fuel (newCtxV1 cfg 0) "sessionId"
          (Value.str (resolveSessionId r)) none benign_empty hf htr]
      | some cid =>
        have hlt : cid < srv.contexts.length := hbound _ cid hlook
        obtain ⟨c0, hc0⟩ : ∃ c0, srv.contexts[cid]? = some c0 :=
          ⟨srv.contexts[cid], List.getElem?_eq_getElem hlt⟩
        have hben0 : benign c0.hooks :=
          hben c0 (List.mem_iff_getElem?.mpr ⟨cid, hc0⟩)
        rw [middlewareStep_old cfg fuel srv r cid c0 hlook hc0]
        dsimp only
        rw [setV1_eq_of_benign fuel c0 "sessionId"
          (Value.str (resolveSessionId r)) none hben0 hf htr]
    · obtain ⟨_, _, _, _, _, _, c, hc, hbenc, hsid⟩ :=
        step_spec cfg fuel srv r hwf hf
      rw [appGet_eq fuel _ _ _ c hc]
      obtain ⟨e, he, hev⟩ : ∃ e, c.storage "sessionId" = some e ∧
          e.value = Value.str (resolveSessionId r) := by
        cases hse : c.storage "sessionId" with
        | none =>
          rw [hse] at hsid
          simp at hsid
        | some e =>
          rw [hse] at hsid
          simp at hsid
          exact ⟨e, rfl, hsid⟩
      rw [getV1_found fuel c _ e hbenc hf he, hev]
  · intro options srv uuid
    have hne : (Value.str uuid) ≠ Value.undefined := by simp
    unfold middleware8Step
    dsimp only
    rw [List.getElem?_concat_length]
    dsimp only
    unfold setV2
    rw [if_neg hne]
    dsimp only
    rw [set_concat_length]
    refine ⟨rfl, ?_, ?_⟩
    · rw [List.getElem?_concat_length]
      simp [mapSet]
    · rw [List.getElem?_concat_length]
      simp [getV2, mapSet]

/-- C10 witness: the reserved-key write evaluated from the empty module
states — with the authorization token as identity in session mode, and
with uuid u1 in fresh-per-request mode. -/
theorem c10_reserved_key_write_witness :
    (middlewareStep none 1 SessionServer.empty ⟨none, some "tok"⟩).2.2
      = [(Event.afterSet, some "sessionId"),
         (Event.onSet, some "sessionId")] ∧
    appGet 1 (middlewareStep none 1 SessionServer.empty
        ⟨none, some "tok"⟩).1
      (middlewareStep none 1 SessionServer.empty ⟨none, some "tok"⟩).2.1
      "sessionId" = Value.str "tok" ∧
    (middleware8Step (fun _ => none) FreshServer.empty "u1").2.2
      = [(Event.afterSet, some "contextId"),
         (Event.onSet, some "contextId")] := by
  have hwfe : WfServer SessionServer.empty := by
    refine ⟨?_, ?_, ?_⟩
    · intro s c h
      exact absurd h (by simp [SessionServer.empty])
    · intro s1 s2 c h1 h2
      exact absurd h1 (by simp [SessionServer.empty])
    · intro c hc
      exact absurd hc (by simp [SessionServer.empty])
  have ha := c10_reserved_key_write.1 none 1 SessionServer.empty
    ⟨none, some "tok"⟩ hwfe (by decide)
  have hb := c10_reserved_key_write.2 (fun _ => none) FreshServer.empty "u1"
  have hres : resolveSessionId ⟨none, some "tok"⟩ = "tok" := by decide
  exact ⟨ha.1, hres ▸ ha.2, hb.1⟩

/-- C8: the automatic-cleanup handler of the fresh-per-request middleware
does remove the handle from the identity table, but it does not clear the
handle's live storage: it calls `context.clear(contextId)` where
`contextId` is the generated uuid string, and the storage key named by the
uuid is absent (the uuid was stored under the key named `contextId`), so
the clear is a storage no-op. After the response-finished hook, the value
set during the unit of work (`foo = bar`) and the reserved entry are still
in the handle's storage, contradicting the repository's own documented
automatic-cleanup behavior (README: context data is cleared after the
response is finished). -/
theorem c8_cleanup_code_bug :
    (freshAfterFinish.contexts[0]?).map (fun c => c.storage "foo")
      = some (some (Value.str "bar")) ∧
    (freshAfterFinish.contexts[0]?).map (fun c => c.storage "contextId")
      = some (some (Value.str "u1")) ∧
    freshAfterFinish.contextStore "u1" = none ∧
    (freshAfterRequest.contexts[0]?).map (fun c => c.storage "foo")
      = some (some (Value.str "bar")) := by
  exact ⟨by decide, by decide, by decide, by decide⟩
